import Mathlib

/-!
Shallow embedding of the execution engine in `program/program.go` of the
dagr repository, and proofs about it.

The file `program/program.go` defines the `Program` type, the stream
forwarder `forwardOutput`, the launcher `Program.Execute` with its
supervising goroutine, the accessor `Program.Executions`, the exit-status
decoder `extractExitCode`, and the discovery function `ReadDir`.  The
`Execution` type with its constructor `NewExecution` and methods
`SendMessage` and `Finish`, together with the `ExitCode` constants, live in
a companion file of the same package that is not available; those are
modelled from the specification and are marked as such below.

Modelling conventions:
  - A Go `error` value is `Option GoError` (`none` = nil).
  - A readable stream, as consumed by `bufio.Scanner`, is the list of the
    lines it yields plus the scanner's final error.
  - A Go channel is modelled by its capacity (`GoChan`); values sent on the
    result channel of `Execute` are collected in a list.
  - The supervising goroutine of `Execute` is straight-line code; it is
    embedded both as a state transformer on the `Execution` and as the
    ordered trace of the operations it performs (`SupEvent`), so that the
    ordering claims (drain-before-reap) can be stated.
-/

namespace Dagr

/-- A Go `error` value as it can reach `Execute`'s supervisor from
`cmd.Wait()`: either an `*exec.ExitError` (whose `Sys()` is a
`syscall.WaitStatus` with the given `ExitStatus()`), or any other error,
carrying only its message. -/
inductive GoError where
  | exitError (status : Int)
  | plain (msg : String)
deriving DecidableEq, Repr

/-- The string produced by the error's `Error()` method; `fmt.Sprint`
inserts it when the error is printed after a string operand. -/
def GoError.text : GoError → String
  | .exitError s => "exit status " ++ toString s
  | .plain m => m

/-- Go: `type ExitCode int` (from the companion execution file). -/
abbrev ExitCode := Int

/-- Modelled from the spec: the `ExitCode` constant `Success` from the
companion execution file, `0` = Success (§3 ExitCode table). -/
def Success : ExitCode := 0

/-- Modelled from the spec: the `ExitCode` constant `Retry` from the
companion execution file, `1` = Retry (§3 ExitCode table). -/
def Retry : ExitCode := 1

/-- Modelled from the spec: the `ExitCode` constant `Failed` from the
companion execution file, `2` = Failed (§3 ExitCode table). -/
def Failed : ExitCode := 2

/-- Modelled from the spec: the statuses of an Execution (§3): it starts
Running and reaches exactly one of the terminal values. -/
inductive Status where
  | Running
  | Success
  | Retry
  | Failed
  | InternalError
deriving DecidableEq, Repr

/-- Modelled from the spec: the classification of an exit code into a
status, as applied by `Execution.Finish` (missing from the sources): `0` =
Success, `1` = Retry, `2` = Failed (§3), and unknown codes map to Failed
(§8: exit code 5 yields Status=Failed). -/
def classifyExitCode (c : ExitCode) : Status :=
  if c = 0 then Status.Success
  else if c = 1 then Status.Retry
  else Status.Failed

/-- One tagged line in an Execution's log: Go's `executionMessage`,
carrying a message type (one of "out", "err", "ok", "fail") and a line of
text. -/
structure Message where
  messageType : String
  line : String
deriving DecidableEq, Repr

/-- A Go channel, modelled by the capacity it was `make`d with. -/
structure GoChan where
  capacity : Nat
deriving DecidableEq, Repr

/-- The state of one Execution: the name of the owning Program (the
back-reference, flattened to the field the engine reads), the messages
channel it was created with, the ordered log of messages, and the current
status.  The log and status evolve; the other fields are fixed at
creation. -/
structure Execution where
  programName : String
  messagesChan : GoChan
  log : List Message
  status : Status
deriving DecidableEq, Repr

/-- Modelled from the spec: `Execution.SendMessage` (missing from the
sources) appends one tagged Message to the ordered append-only log
(§4.2, §4.3). -/
def Execution.SendMessage (e : Execution) (messageType text : String) : Execution :=
  { e with log := e.log ++ [⟨messageType, text⟩] }

/-- Modelled from the spec: `Execution.Finish` (missing from the sources)
sets the terminal status determined by the exit code it is passed (§3). -/
def Execution.Finish (e : Execution) (code : ExitCode) : Execution :=
  { e with status := classifyExitCode code }

/-- Modelled from the spec: `NewExecution` (missing from the sources)
creates the Execution in Running state with an empty message log, holding
the messages channel made by `Execute`. -/
def NewExecution (programName : String) (messages : GoChan) : Execution :=
  { programName := programName
    messagesChan := messages
    log := []
    status := Status.Running }

/-- Go: `const BUFFER_SIZE = 1000` (program.go line 17). -/
def BUFFER_SIZE : Nat := 1000

/-- A `Program` (program.go lines 19-25).  The embedded `sync.RWMutex` is
not represented: `Execute` runs under it from entry to return, so the
function below is its atomic effect. -/
structure Program where
  Name : String
  CommandPath : String
  MainSource : String
  executions : List Execution
deriving DecidableEq, Repr

/-- What `forwardOutput` produces: the Execution state after forwarding,
the lines written by `log.Println` for a scanner error, and the number of
sends performed on the `finished` channel. -/
structure ForwardOutcome where
  execution : Execution
  scannerWarnings : List String
  finishedSends : Nat
deriving DecidableEq, Repr

/-- `forwardOutput` (program.go lines 27-39).  The stream is the list of
lines the `bufio.Scanner` yields, in order, plus the scanner's final error
(`none` for clean end-of-stream).  Each line is appended to the log by
`SendMessage` before the next line is taken from the stream (the `foldl`
consumes the lines in order); a scanner error is logged; finally one value
is sent on `finished`. -/
def forwardOutput (execution : Execution) (messageType : String)
    (lines : List String) (scanErr : Option GoError) : ForwardOutcome :=
  let execution := lines.foldl (fun e line => e.SendMessage messageType line) execution
  let warnings :=
    match scanErr with
    | some err => [execution.programName ++ " scanner error " ++ err.text]
    | none => []
  { execution := execution
    scannerWarnings := warnings
    finishedSends := 1 }

/-- `extractExitCode` (program.go lines 114-121): an `*exec.ExitError`
yields its Unix exit status and a nil error; any other error is returned
unchanged with code 0. -/
def extractExitCode : GoError → ExitCode × Option GoError
  | GoError.exitError status => (status, none)
  | e => (0, some e)

/-- One operation performed by the supervising goroutine of `Execute`, in
program order: receiving a forwarder's completion signal, calling
`cmd.Wait()`, logging, appending a message, finishing the Execution,
sending the result on the caller's channel, and the deferred closes. -/
inductive SupEvent where
  | recvStdoutFinished
  | recvStderrFinished
  | waitProcess
  | logLine (text : String)
  | sendMessage (messageType text : String)
  | finish (code : ExitCode)
  | sendResult (code : ExitCode)
  | closeStderrFinished
  | closeStdoutFinished
  | closeMessages
deriving DecidableEq, Repr

/-- What the supervising goroutine produces: the final Execution state,
the values sent on `Execute`'s result channel `ch`, and the ordered trace
of the operations it performed. -/
structure SupOutcome where
  execution : Execution
  chSends : List ExitCode
  trace : List SupEvent
deriving DecidableEq, Repr

/-- The supervising goroutine of `Execute` (program.go lines 71-103).  It
first receives on `stdoutFinished`, then on `stderrFinished`, and only
then calls `cmd.Wait()`; `waitErr` is the error that call returns (`none`
= nil).  A nil error appends one "ok" message and finishes with `Success`;
an error whose exit code cannot be extracted appends one "fail" message
with the raw error text and finishes with `Failed`; otherwise one "fail"
message naming the extracted code is appended and the Execution finishes
with that code.  The three `defer`red closes run last, in reverse order of
their `defer` statements. -/
def supervise (execution : Execution) (waitErr : Option GoError) : SupOutcome :=
  let blocked := [SupEvent.recvStdoutFinished, SupEvent.recvStderrFinished,
                  SupEvent.waitProcess]
  let deferred := [SupEvent.closeStderrFinished, SupEvent.closeStdoutFinished,
                   SupEvent.closeMessages]
  match waitErr with
  | none =>
      let e := execution.SendMessage "ok" "successfully completed"
      let e := e.Finish Success
      { execution := e
        chSends := [Success]
        trace := blocked
          ++ [SupEvent.sendMessage "ok" "successfully completed",
              SupEvent.finish Success, SupEvent.sendResult Success]
          ++ deferred }
  | some err =>
      match extractExitCode err with
      | (_, some err2) =>
          let text := "failed to run " ++ err2.text
          let e := execution.SendMessage "fail" text
          let e := e.Finish Failed
          { execution := e
            chSends := [Failed]
            trace := blocked
              ++ [SupEvent.logLine (execution.programName ++ " " ++ text),
                  SupEvent.sendMessage "fail" text,
                  SupEvent.finish Failed, SupEvent.sendResult Failed]
              ++ deferred }
      | (exitCode, none) =>
          let text := "exited with status " ++ toString exitCode
          let e := execution.SendMessage "fail" text
          let e := e.Finish exitCode
          { execution := e
            chSends := [exitCode]
            trace := blocked
              ++ [SupEvent.logLine (execution.programName ++ " " ++ text),
                  SupEvent.sendMessage "fail" text,
                  SupEvent.finish exitCode, SupEvent.sendResult exitCode]
              ++ deferred }

/-- Behaviour of `cmd.Wait()` in Go's `os/exec` when the child process
runs to completion with OS exit status `n`: the returned error is nil
exactly when `n = 0`, and otherwise an `*exec.ExitError` carrying `n`. -/
def waitResultOfExitStatus (n : Int) : Option GoError :=
  if n = 0 then none else some (GoError.exitError n)

/-- The outcome of the fallible launch steps of `Execute`: `StdoutPipe`,
`StderrPipe` and `Start` each may fail with an error, or all succeed. -/
inductive LaunchOutcome where
  | stdoutPipeErr (e : GoError)
  | stderrPipeErr (e : GoError)
  | startErr (e : GoError)
  | started
deriving DecidableEq, Repr

/-- What `Execute` returns and leaves behind synchronously: the Program
state after the call, the Execution handle (nil on failure) and the error
(nil on success). -/
structure ExecuteResult where
  program : Program
  handle : Option Execution
  error : Option GoError
deriving DecidableEq, Repr

/-- The synchronous part of `Program.Execute` (program.go lines 41-108),
run under the Program's lock from entry to return.  If any of the two pipe
creations or `cmd.Start()` fails, the error is returned at once, no
Execution is made and the Program is untouched.  Otherwise the messages
channel is made with capacity `BUFFER_SIZE`, a fresh Execution is created,
appended to `p.executions`, and returned as the handle. -/
def Program.Execute (p : Program) (launch : LaunchOutcome) : ExecuteResult :=
  match launch with
  | .stdoutPipeErr e => { program := p, handle := none, error := some e }
  | .stderrPipeErr e => { program := p, handle := none, error := some e }
  | .startErr e => { program := p, handle := none, error := some e }
  | .started =>
      let messages : GoChan := { capacity := BUFFER_SIZE }
      let execution := NewExecution p.Name messages
      { program := { p with executions := p.executions ++ [execution] }
        handle := some execution
        error := none }

/-- `Program.Executions` (program.go lines 110-112). -/
def Program.Executions (p : Program) : List Execution :=
  p.executions

/-- The filesystem as seen by `ReadDir`: `ioutil.ReadDir` yields either an
error or the entry names in directory-listing order; `os.Stat` yields nil
or an error per path; `ioutil.ReadFile` yields the contents or an error
per path. -/
structure FS where
  listDir : String → Except GoError (List String)
  stat : String → Option GoError
  readFile : String → Except GoError String

/-- `filepath.Join(dir, name, "main")` on inputs that need no cleaning. -/
def joinPath (dir name last : String) : String :=
  dir ++ "/" ++ name ++ "/" ++ last

/-- `ReadDir` (program.go lines 123-151): if listing the directory fails
the error is returned; otherwise each entry whose `<dir>/<entry>/main`
both stats and reads successfully contributes one Program, in listing
order, and every other entry is skipped silently. -/
def ReadDir (fs : FS) (dir : String) : Except GoError (List Program) :=
  match fs.listDir dir with
  | .error err => .error err
  | .ok infos =>
      .ok (infos.foldl
        (fun programs name =>
          let commandPath := joinPath dir name "main"
          match fs.stat commandPath with
          | none =>
              match fs.readFile commandPath with
              | .ok mainSource =>
                  programs ++ [{ Name := name
                                 CommandPath := commandPath
                                 MainSource := mainSource
                                 executions := [] }]
              | .error _ => programs
          | some _ => programs)
        [])

/-- Specification-side view of one iteration of `ReadDir`'s loop: the
Program contributed by directory entry `name`, if any. -/
def entryProgram (fs : FS) (dir name : String) : Option Program :=
  let commandPath := joinPath dir name "main"
  match fs.stat commandPath with
  | none =>
      match fs.readFile commandPath with
      | .ok mainSource =>
          some { Name := name
                 CommandPath := commandPath
                 MainSource := mainSource
                 executions := [] }
      | .error _ => none
  | some _ => none

/-- The arguments of the `finish` events of a supervisor trace, in order:
the exit codes passed to `Execution.Finish`. -/
def finishArgs (tr : List SupEvent) : List ExitCode :=
  tr.filterMap (fun ev =>
    match ev with
    | SupEvent.finish c => some c
    | _ => none)

/-! ## Helper lemmas -/

/-- Forwarding a list of lines appends their Messages, in order, and
changes nothing else of the Execution. -/
theorem sendAll_eq (tag : String) (lines : List String) (e : Execution) :
    lines.foldl (fun e line => e.SendMessage tag line) e
      = { e with log := e.log ++ lines.map (fun line => ⟨tag, line⟩) } := by
  induction lines generalizing e with
  | nil => simp
  | cons line rest ih =>
      rw [List.foldl_cons, ih]
      simp [Execution.SendMessage]

/-- The loop of `ReadDir` computes a `filterMap` of `entryProgram` over
the directory entries. -/
theorem readDir_loop_eq (fs : FS) (dir : String) (infos : List String)
    (acc : List Program) :
    infos.foldl
        (fun programs name =>
          let commandPath := joinPath dir name "main"
          match fs.stat commandPath with
          | none =>
              match fs.readFile commandPath with
              | .ok mainSource =>
                  programs ++ [{ Name := name
                                 CommandPath := commandPath
                                 MainSource := mainSource
                                 executions := [] }]
              | .error _ => programs
          | some _ => programs)
        acc
      = acc ++ infos.filterMap (entryProgram fs dir) := by
  induction infos generalizing acc with
  | nil => simp
  | cons name rest ih =>
      rw [List.foldl_cons, ih, List.filterMap_cons]
      cases h : fs.stat (joinPath dir name "main") with
      | none =>
          cases h2 : fs.readFile (joinPath dir name "main") with
          | ok src => simp [entryProgram, h, h2]
          | error err => simp [entryProgram, h, h2]
      | some err => simp [entryProgram, h]

/-! ## Claim theorems -/

/-- C1: for every started Execution whose wait yields OS exit status `n`,
the supervisor appends exactly one message — "ok" when `n = 0`, otherwise
one "fail" message whose text carries the numeral of `n` — and finishes
the Execution with Status Success when `n = 0`, Retry when `n = 1`, and
Failed for every other `n` (in particular `n = 2` and `n = 5`). -/
theorem c1_exit_code_classification (e : Execution) (n : Int) :
    (supervise e (waitResultOfExitStatus n)).execution.status
      = (if n = 0 then Status.Success
         else if n = 1 then Status.Retry
         else Status.Failed)
    ∧ (supervise e (waitResultOfExitStatus n)).execution.log
      = e.log ++ [if n = 0 then (⟨"ok", "successfully completed"⟩ : Message)
                  else ⟨"fail", "exited with status " ++ toString n⟩] := by
  by_cases h0 : n = 0
  · subst h0
    constructor <;>
      simp [supervise, waitResultOfExitStatus, Execution.SendMessage,
        Execution.Finish, classifyExitCode, Success]
  · by_cases h1 : n = 1 <;>
      constructor <;>
        simp [supervise, waitResultOfExitStatus, extractExitCode,
          Execution.SendMessage, Execution.Finish, classifyExitCode, h0, h1]

/-- C2: if the stdout pipe, the stderr pipe or the process start fails,
`Execute` returns a nil Execution handle together with the error, creates
no Execution, and leaves the Program — in particular its executions
history — unchanged. -/
theorem c2_launch_failure_is_synchronous (p : Program) (err : GoError) :
    p.Execute (LaunchOutcome.stdoutPipeErr err)
        = { program := p, handle := none, error := some err }
    ∧ p.Execute (LaunchOutcome.stderrPipeErr err)
        = { program := p, handle := none, error := some err }
    ∧ p.Execute (LaunchOutcome.startErr err)
        = { program := p, handle := none, error := some err } :=
  ⟨rfl, rfl, rfl⟩

/-- C3: in the supervising goroutine's trace, the first three operations
are, in order, receiving the stdout forwarder's completion signal,
receiving the stderr forwarder's completion signal, and only then calling
`Wait`; `Wait` occurs nowhere later, so the process is never reaped before
both streams are fully drained. -/
theorem c3_drain_both_streams_before_wait (e : Execution) (w : Option GoError) :
    (supervise e w).trace.take 3
        = [SupEvent.recvStdoutFinished, SupEvent.recvStderrFinished,
           SupEvent.waitProcess]
    ∧ SupEvent.waitProcess ∉ (supervise e w).trace.drop 3 := by
  cases w with
  | none => constructor <;> simp [supervise]
  | some err => cases err <;> constructor <;> simp [supervise, extractExitCode]

/-- C4 counterexample: when `Wait` returns an error from which no exit
code can be extracted (here the plain error "boom"), the supervisor sets
the Execution's terminal Status to Failed, not to InternalError as the
claim states. -/
theorem c4_internal_error_counterexample :
    (supervise (NewExecution "p" { capacity := 1000 })
        (some (GoError.plain "boom"))).execution.status = Status.Failed
    ∧ (supervise (NewExecution "p" { capacity := 1000 })
        (some (GoError.plain "boom"))).execution.status ≠ Status.InternalError := by
  decide

/-- C4 (amended): whenever `Wait` returns an error from which no OS-level
exit code can be extracted, the supervisor appends exactly one "fail"
message containing the raw error text and sets the Execution's terminal
Status to Failed — the same terminal value as a clean exit 2; the case is
distinguished only by its message text ("failed to run ..."). -/
theorem c4_unextractable_exit_status (e : Execution) (msg : String) :
    (supervise e (some (GoError.plain msg))).execution.log
        = e.log ++ [⟨"fail", "failed to run " ++ msg⟩]
    ∧ (supervise e (some (GoError.plain msg))).execution.status
        = Status.Failed := by
  constructor <;>
    simp [supervise, extractExitCode, GoError.text, Execution.SendMessage,
      Execution.Finish, classifyExitCode, Failed]

/-- C5: for every stream and tag, `forwardOutput` appends exactly one
Message per line of the stream, each carrying the tag and that line's
text, in stream order (the fold appends each line's Message before the
next line is consumed), and after the stream is exhausted it signals
completion exactly once on its dedicated channel. -/
theorem c5_forward_output_lines (e : Execution) (tag : String)
    (lines : List String) (scanErr : Option GoError) :
    (forwardOutput e tag lines scanErr).execution.log
        = e.log ++ lines.map (fun line => ⟨tag, line⟩)
    ∧ (forwardOutput e tag lines scanErr).finishedSends = 1 := by
  constructor
  · simp [forwardOutput, sendAll_eq]
  · rfl

/-- C6: when the scanner ends with a non-EOF error, `forwardOutput` logs
it as a warning, still sends its completion signal exactly once, and
leaves the Execution's Status untouched: only the process exit status
(handled by the supervisor) determines the outcome. -/
theorem c6_scanner_error_is_nonfatal (e : Execution) (tag : String)
    (lines : List String) (err : GoError) :
    (forwardOutput e tag lines (some err)).scannerWarnings
        = [e.programName ++ " scanner error " ++ err.text]
    ∧ (forwardOutput e tag lines (some err)).finishedSends = 1
    ∧ (forwardOutput e tag lines (some err)).execution.status = e.status := by
  refine ⟨?_, rfl, ?_⟩ <;> simp [forwardOutput, sendAll_eq]

/-- C7: a successful `Execute` appends the newly created Execution to the
Program's executions list (the whole call runs under the Program's lock)
and returns that same Execution as the handle; for every launch outcome
the prior executions list is a prefix of the new one, so the history is
append-only and Executions are totally ordered by creation. -/
theorem c7_history_append_only (p : Program) (launch : LaunchOutcome) :
    (∃ e, (p.Execute LaunchOutcome.started).handle = some e
        ∧ (p.Execute LaunchOutcome.started).program.Executions
            = p.Executions ++ [e])
    ∧ ∃ tail, (p.Execute launch).program.Executions = p.Executions ++ tail := by
  constructor
  · exact ⟨NewExecution p.Name { capacity := BUFFER_SIZE }, rfl, rfl⟩
  · cases launch with
    | started => exact ⟨[NewExecution p.Name { capacity := BUFFER_SIZE }], rfl⟩
    | stdoutPipeErr e => exact ⟨[], by simp [Program.Execute, Program.Executions]⟩
    | stderrPipeErr e => exact ⟨[], by simp [Program.Execute, Program.Executions]⟩
    | startErr e => exact ⟨[], by simp [Program.Execute, Program.Executions]⟩

/-- C8: every Execution handed out by `Execute` holds a messages channel
made with capacity `BUFFER_SIZE`, which is 1000, so at most 1000 unread
messages can be pending in its buffer. -/
theorem c8_message_buffer_capacity (p : Program) (launch : LaunchOutcome)
    (e : Execution) (h : (p.Execute launch).handle = some e) :
    e.messagesChan.capacity = BUFFER_SIZE ∧ BUFFER_SIZE = 1000 := by
  cases launch with
  | started =>
      simp only [Program.Execute, Option.some.injEq] at h
      subst h
      exact ⟨rfl, rfl⟩
  | stdoutPipeErr ge => simp [Program.Execute] at h
  | stderrPipeErr ge => simp [Program.Execute] at h
  | startErr ge => simp [Program.Execute] at h

/-- C8 witness: a concrete Program whose `Execute` yields an Execution,
to which the capacity theorem applies. -/
theorem c8_message_buffer_capacity_witness :
    (({ Name := "p", CommandPath := "w/p/main", MainSource := "",
        executions := [] } : Program).Execute LaunchOutcome.started).handle
        = some (NewExecution "p" { capacity := 1000 })
    ∧ ((NewExecution "p" { capacity := 1000 }).messagesChan.capacity = BUFFER_SIZE
        ∧ BUFFER_SIZE = 1000) :=
  ⟨rfl, c8_message_buffer_capacity
    { Name := "p", CommandPath := "w/p/main", MainSource := "", executions := [] }
    LaunchOutcome.started (NewExecution "p" { capacity := 1000 }) rfl⟩

/-- C9: `ReadDir` returns an error exactly when listing the directory
fails, and otherwise returns, in listing order, one Program per entry
whose `<dir>/<entry>/main` both stats and reads successfully — with Name
the entry name, CommandPath that path and MainSource the file contents —
silently skipping every other entry. -/
theorem c9_read_dir_characterization (fs : FS) (dir : String) :
    (match fs.listDir dir with
     | .error err => ReadDir fs dir = Except.error err
     | .ok infos =>
         ReadDir fs dir = Except.ok (infos.filterMap (entryProgram fs dir))) := by
  cases h : fs.listDir dir with
  | error err => simp [ReadDir, h]
  | ok infos => simp [ReadDir, h, readDir_loop_eq]

/-- C10: for every wait outcome, the supervising goroutine sends exactly
one value on the result channel, that value is exactly the argument of the
unique `Finish` call in its trace, and it is `Success` on a clean nil
wait, `Failed` when the wait error carries no extractable exit code, and
the extracted exit code itself otherwise. -/
theorem c10_result_channel_send (e : Execution) (w : Option GoError) :
    (supervise e w).chSends = finishArgs (supervise e w).trace
    ∧ (supervise e w).chSends
        = [match w with
           | none => Success
           | some err =>
               match extractExitCode err with
               | (code, none) => code
               | (_, some _) => Failed] := by
  cases w with
  | none => exact ⟨rfl, rfl⟩
  | some err => cases err <;> exact ⟨rfl, rfl⟩

end Dagr
